import Mathlib

/-!
Shallow embedding of the weighbridge application's device-connectivity layer
(`services/serialService.js`) and printing layer (`services/printerService.js`).

Weights are modelled as rationals (JS numbers on the decimal inputs the
parser produces), machine state as an explicit record, and every callback of
the single-threaded event loop as one atomic step of a transition function.
-/

namespace WeighBridge

/-- JS `Math.round`: rounds half towards positive infinity, `⌊x + 1/2⌋`. -/
def jsRound (q : ℚ) : ℤ := ⌊q + 1/2⌋

/-- JS `Math.abs` on rationals. -/
def jsAbs (q : ℚ) : ℚ := if q < 0 then -q else q

/-- Arithmetic mean of a list of rationals
(`buffer.reduce((a,b) => a+b, 0) / buffer.length`). -/
def listMean (l : List ℚ) : ℚ := l.sum / l.length

/-- State of the `SerialService` singleton: the fields of the JS class that
carry behaviour. `simActive` models `simInterval !== null`, `pollActive`
models `reconnectTimer !== null`, `pending` counts outstanding
`sp.open(...)` callbacks, `simBase` is the simulation's local `base`. -/
structure SState where
  currentWeight  : ℚ
  weightBuffer   : List ℚ
  stableWeight   : ℤ
  isConnected    : Bool
  isSimulation   : Bool
  simActive      : Bool
  pollActive     : Bool
  reconnectActive : Bool
  pending        : ℕ
  simBase        : ℤ
  deriving Repr, DecidableEq

/-- The constructor's initial state. -/
def serialInit : SState :=
  { currentWeight := 0, weightBuffer := [], stableWeight := 0,
    isConnected := false, isSimulation := false, simActive := false,
    pollActive := false, reconnectActive := false, pending := 0,
    simBase := 39170 }

/-- One weight broadcast message (`type:'weight'` payload, sans timestamp). -/
structure WeightUpdate where
  weight       : ℚ
  stable       : Bool
  stableWeight : ℤ
  simulation   : Bool
  deriving Repr, DecidableEq

/-- `this.weightBuffer.push(weight); if (length > 5) shift()` — append and
drop the oldest element once more than 5 are held. -/
def pushBuf (buf : List ℚ) (w : ℚ) : List ℚ :=
  let b := buf ++ [w]
  if b.length > 5 then b.tail else b

/-- `SerialService.updateWeight`: push the sample, recompute the mean over
the (possibly not yet full) buffer, set `isStable` when every sample is
strictly within 5 of the mean, update `stableWeight` only when additionally
the buffer holds exactly 5 samples, and broadcast. Returns the new state and
the broadcast payload. -/
def updateWeight (s : SState) (weight : ℚ) : SState × WeightUpdate :=
  let buf := pushBuf s.weightBuffer weight
  let avg := listMean buf
  let isStable := buf.all fun w => decide (jsAbs (w - avg) < 5)
  let sw := if isStable && buf.length == 5 then jsRound avg else s.stableWeight
  ({ s with currentWeight := weight, weightBuffer := buf, stableWeight := sw },
   { weight := weight, stable := isStable, stableWeight := sw,
     simulation := s.isSimulation })

/-- The synthetic current-state message sent by `addWSClient` to a freshly
registered subscriber: note the hard-coded `stable: false`. -/
def initialClientMessage (s : SState) : WeightUpdate :=
  { weight := s.currentWeight, stable := false,
    stableWeight := s.stableWeight, simulation := s.isSimulation }

/-! ### Line parser (`SerialService.parseWeight`) -/

def isDigit (c : Char) : Bool := '0' ≤ c && c ≤ '9'

def isSpaceChar (c : Char) : Bool :=
  c == ' ' || c == '\t' || c == '\n' || c == '\r'

/-- JS `String.prototype.trim`. -/
def jsTrim (l : List Char) : List Char :=
  ((l.dropWhile isSpaceChar).reverse.dropWhile isSpaceChar).reverse

/-- Numeric value of a digit string, most significant first. -/
def parseDigits (ds : List Char) : ℕ :=
  ds.foldl (fun n c => 10 * n + (c.toNat - '0'.toNat)) 0

/-- Value of the regex capture group `(\d+\.?\d*)` read greedily from the
head of `l`: integer digits, an optional dot, then fractional digits
(`parseFloat` of the captured text). -/
def captureValue (l : List Char) : ℚ :=
  let intDs := l.takeWhile isDigit
  let rest := l.dropWhile isDigit
  let fracDs := match rest with
    | '.' :: r => r.takeWhile isDigit
    | _ => []
  (parseDigits intDs : ℚ) + (parseDigits fracDs : ℚ) / (10 ^ fracDs.length : ℚ)

def headIsDigit : List Char → Bool
  | [] => false
  | c :: _ => isDigit c

/-- Left-to-right search for the first match of `[\+\-]?(\d+\.?\d*)`,
returning the suffix at which the capture group starts: the capture group
excludes the sign, so a leading `+`/`-` is skipped over, not captured. -/
def findFirstNumber : List Char → Option (List Char)
  | [] => none
  | c :: rest =>
    if isDigit c then some (c :: rest)
    else if (c == '+' || c == '-') && headIsDigit rest then some rest
    else findFirstNumber rest

/-- `cleaned.match(/[\+\-]?(\d+\.?\d*)/)` followed by `parseFloat(match[1])`. -/
def extractWeight (line : String) : Option ℚ :=
  (findFirstNumber (jsTrim line.toList)).map captureValue

/-- `SerialService.parseWeight`: extract the first number, accept it into
`updateWeight` iff `0 ≤ w < 200000`, otherwise leave the state untouched. -/
def parseWeightFn (s : SState) (line : String) : SState :=
  match extractWeight line with
  | none => s
  | some w => if 0 ≤ w ∧ w < 200000 then (updateWeight s w).1 else s

/-! ### Connection state machine

Each I/O or timer callback of the single-threaded event loop is one atomic
step. The private helpers mirror the JS methods of the same names. -/

/-- `_startSimulationIfNeeded`: no-op when `simInterval` already exists;
otherwise start the interval with the local `base` reset to 39170. -/
def startSimulationIfNeeded (s : SState) : SState :=
  if s.simActive then s else { s with simActive := true, simBase := 39170 }

/-- `_stopSimulation`. -/
def stopSimulation (s : SState) : SState := { s with simActive := false }

/-- `_startReconnectLoop`: no-op when the timer already exists. -/
def startReconnectLoop (s : SState) : SState := { s with pollActive := true }

/-- `_stopReconnectLoop`. -/
def stopReconnectLoop (s : SState) : SState := { s with pollActive := false }

/-- `_tryConnect`, successful synchronous part: guarded by
`reconnectActive`; when clear, set the flag and leave one `sp.open`
callback outstanding. -/
def tryConnect (s : SState) : SState :=
  if s.reconnectActive then s
  else { s with reconnectActive := true, pending := s.pending + 1 }

/-- `_tryConnect` when the `try` block throws synchronously: the `catch`
clears `reconnectActive`, falls back to simulation and starts the
reconnect poll; no open callback is left outstanding. -/
def tryConnectEx (s : SState) : SState :=
  if s.reconnectActive then s
  else startReconnectLoop (startSimulationIfNeeded
    { s with isConnected := false, isSimulation := true })

/-- `_onPortLost`: runtime error or unexpected close of a live port. -/
def onPortLost (s : SState) : SState :=
  startReconnectLoop (startSimulationIfNeeded
    { s with isConnected := false, isSimulation := true })

/-- The events that can fire: each is one callback run to completion.
`simTick` carries the tick's `Math.floor(Math.random()*20 - 10)` noise,
`pollTick` the result of the `_isPortAvailable` query, `dataLine` one line
delivered by the readline parser. -/
inductive SEvent where
  | connectAttempt                 -- `_tryConnect` whose try-block succeeds
  | connectAttemptEx               -- `_tryConnect` whose try-block throws
  | openSuccess                    -- `sp.open` callback, `err` null
  | openFail                       -- `sp.open` callback, `err` non-null
  | portLost                       -- `sp.on('error')` / `sp.on('close')`
  | simTick (noise : ℤ)            -- simulation interval tick
  | pollTick (available : Bool)    -- reconnect-poll interval tick
  | reconnectReq                   -- `reconnect(path, baud)` route call
  | dataLine (line : String)       -- parser `data` event
  deriving Repr

/-- One atomic event-loop step of `SerialService`. -/
def step (s : SState) : SEvent → SState
  | .connectAttempt => tryConnect s
  | .connectAttemptEx => tryConnectEx s
  | .openSuccess =>
    if s.pending = 0 then s
    else stopReconnectLoop (stopSimulation
      { s with pending := s.pending - 1, reconnectActive := false,
               isConnected := true, isSimulation := false })
  | .openFail =>
    if s.pending = 0 then s
    else startReconnectLoop (startSimulationIfNeeded
      { s with pending := s.pending - 1, reconnectActive := false,
               isConnected := false, isSimulation := true })
  | .portLost => onPortLost s
  | .simTick noise =>
    if s.simActive then
      if s.isConnected then stopSimulation s
      else
        let b := max 0 (s.simBase + noise)
        (updateWeight { s with simBase := b } (b : ℚ)).1
    else s
  | .pollTick available =>
    if s.pollActive then
      if s.isConnected then stopReconnectLoop s
      else if available then tryConnect s else s
    else s
  | .reconnectReq => tryConnect (stopReconnectLoop (stopSimulation s))
  | .dataLine line => if s.isConnected then parseWeightFn s line else s

/-- Run a sequence of events from a state. -/
def run (s : SState) (evs : List SEvent) : SState := evs.foldl step s

/-! ### Printer service (`services/printerService.js`) -/

/-- A gross/tare weight entry on a bill: `{value, timestamp}`. JS renders
`value || '--'`, so a zero value is falsy; an absent timestamp renders
as the empty string. -/
structure WeightEntry where
  value : ℕ
  timestamp : String
  deriving Repr, DecidableEq

/-- The bill fields `printerService` reads. Free-text fields are strings;
`charges` and `netWeight` keep the JS string coercion of their numbers. -/
structure Bill where
  billNo : String
  dateTime : String
  vehicleNo : String
  customer : String
  material : String
  charges : String
  grossWeight : Option WeightEntry
  tareWeight : Option WeightEntry
  netWeight : ℕ
  camera1Image : String
  camera2Image : String
  deriving Repr, DecidableEq

/-- The environment's `Date` locale formatters (`toLocaleDateString`,
`toLocaleTimeString`, `toLocaleString` with `'en-IN'`), abstracted as
string transforms applied to the stored timestamp text. -/
structure DateFmt where
  localeDate : String → String
  localeTime : String → String
  locale : String → String

/-- The `'─'.repeat(48)` divider. -/
def divider : String := String.join (List.replicate 48 "─")

def renderValue : Option WeightEntry → String
  | some e => if e.value = 0 then "--" else toString e.value
  | none => "--"

def renderTimestamp (fmt : DateFmt) : Option WeightEntry → String
  | some e => if e.timestamp = "" then "" else fmt.locale e.timestamp
  | none => ""

/-- `_buildRawPCL`: the deterministic raw PCL/PJL fallback document built
from the structured bill fields. It never reads `camera1Image` or
`camera2Image`. -/
def buildRawPCL (fmt : DateFmt) (bill : Bill) : String :=
  String.join
    [ "\x1B%-12345X@PJL\r\n",
      "@PJL ENTER LANGUAGE=PCL\r\n",
      "\x1BE",
      "\x1B&l0O",
      "\x1B&l2A",
      "\r\n",
      "SRI VENKADESWARA WEIGH BRIDGE\r\n",
      divider ++ "\r\n",
      "Serial No : " ++ bill.billNo ++ "    Date: " ++
        fmt.localeDate bill.dateTime ++ "\r\n",
      "Time      : " ++ fmt.localeTime bill.dateTime ++ "\r\n",
      divider ++ "\r\n",
      "Vehicle No    : " ++ bill.vehicleNo ++ "\r\n",
      "Customer Name : " ++ bill.customer ++ "\r\n",
      "Material      : " ++ bill.material ++ "\r\n",
      "Charge        : Rs. " ++ bill.charges ++ "\r\n",
      divider ++ "\r\n",
      "Gross Weight  : " ++ renderValue bill.grossWeight ++ " Kg\r\n",
      "               " ++ renderTimestamp fmt bill.grossWeight ++ "\r\n",
      "Tare Weight   : " ++ renderValue bill.tareWeight ++ " Kg\r\n",
      "               " ++ renderTimestamp fmt bill.tareWeight ++ "\r\n",
      divider ++ "\r\n",
      "NET WEIGHT    : " ++
        (if bill.netWeight = 0 then "--" else toString bill.netWeight) ++
        " Kg\r\n",
      divider ++ "\r\n",
      "\r\n\r\n\r\n",
      "\x1BE",
      "\x1B%-12345X" ]

/-- Which payload a socket send carries: the rendered PDF file or the raw
PCL fallback document. -/
inductive SendTag where
  | pdf
  | raw
  deriving Repr, DecidableEq

/-- The sequential per-copy send loop of `printViaIP` (`for (i...) await
send(...)`): starting at global attempt index `start`, try `n` sends;
stop at the first rejected send. Returns the next attempt index, whether
all sends resolved, and the trace of attempts made. -/
def runCopies (sendOk : ℕ → Bool) (tag : SendTag) :
    ℕ → ℕ → ℕ × Bool × List (SendTag × ℕ)
  | start, 0 => (start, true, [])
  | start, n + 1 =>
    if sendOk start then
      ((runCopies sendOk tag (start + 1) n).1,
       (runCopies sendOk tag (start + 1) n).2.1,
       (tag, start) :: (runCopies sendOk tag (start + 1) n).2.2)
    else (start + 1, false, [(tag, start)])

/-- Outcome of `printViaIP`: `result = some m` models the method of a
resolved `{success:true, method:m}`, `result = none` a rejection
propagating to the caller; `sends` is the ordered trace of socket send
attempts; `rawPayload` is the raw document when the fallback path built
one. -/
structure IpOutcome where
  result : Option String
  sends : List (SendTag × ℕ)
  rawPayload : Option String
  deriving Repr

/-- `printViaIP`: try `wkhtmltopdf` (outcome `renderOk`), then send the PDF
once per copy sequentially; ANY exception in that try block — renderer
failure or a copy's transport failure — lands in the catch, which builds
the raw PCL document and sends it once per copy sequentially; a transport
failure there rejects out of the function. `sendOk i` is the resolution of
the `i`-th socket send attempted in the whole call. -/
def printViaIP (fmt : DateFmt) (bill : Bill) (renderOk : Bool)
    (sendOk : ℕ → Bool) (copies : ℕ) : IpOutcome :=
  if renderOk then
    if (runCopies sendOk .pdf 0 copies).2.1 then
      { result := some "ip_pdf",
        sends := (runCopies sendOk .pdf 0 copies).2.2,
        rawPayload := none }
    else
      { result :=
          if (runCopies sendOk .raw (runCopies sendOk .pdf 0 copies).1
              copies).2.1
          then some "ip_raw" else none,
        sends := (runCopies sendOk .pdf 0 copies).2.2 ++
          (runCopies sendOk .raw (runCopies sendOk .pdf 0 copies).1
            copies).2.2,
        rawPayload := some (buildRawPCL fmt bill) }
  else
    { result := if (runCopies sendOk .raw 0 copies).2.1 then some "ip_raw"
        else none,
      sends := (runCopies sendOk .raw 0 copies).2.2,
      rawPayload := some (buildRawPCL fmt bill) }

/-! ### Reachability probe (`testIPPrinter`) -/

/-- The one socket event that settles the probe's promise. -/
inductive SocketOutcome where
  | connected
  | errored (msg : String)
  | timedOut
  deriving Repr, DecidableEq

structure TestResult where
  reachable : Bool
  host : String
  port : ℕ
  error : Option String
  deriving Repr, DecidableEq

/-- The probe's socket timeout in milliseconds: `client.setTimeout(4000)`. -/
def testTimeoutMs : ℕ := 4000

/-- `testIPPrinter(host, port)`: always resolves. On connect it destroys
the socket and reports reachable; on error it reports the transport error
text; on timeout it destroys the socket and reports `'Timeout'`. The
second component lists the payload writes performed on the socket — the
probe never writes. -/
def testIPPrinter (host : String) (port : ℕ) :
    SocketOutcome → TestResult × List String
  | .connected => ({ reachable := true, host, port, error := none }, [])
  | .errored msg =>
    ({ reachable := false, host, port, error := some msg }, [])
  | .timedOut =>
    ({ reachable := false, host, port, error := some "Timeout" }, [])

/-! ### Basic unfolding lemmas -/

lemma jsAbs_eq_abs (q : ℚ) : jsAbs q = |q| := by
  unfold jsAbs
  split
  · exact (abs_of_neg (by assumption)).symm
  · exact (abs_of_nonneg (not_lt.mp (by assumption))).symm

lemma updateWeight_stable_eq (s : SState) (w : ℚ) :
    (updateWeight s w).2.stable =
      (pushBuf s.weightBuffer w).all
        (fun x => decide (jsAbs (x - listMean (pushBuf s.weightBuffer w)) < 5)) :=
  rfl

lemma updateWeight_stableWeight_eq (s : SState) (w : ℚ) :
    (updateWeight s w).1.stableWeight =
      (if ((pushBuf s.weightBuffer w).all
            fun x => decide (jsAbs (x - listMean (pushBuf s.weightBuffer w)) < 5)) &&
          ((pushBuf s.weightBuffer w).length == 5)
       then jsRound (listMean (pushBuf s.weightBuffer w))
       else s.stableWeight) := rfl

lemma updateWeight_buffer (s : SState) (w : ℚ) :
    (updateWeight s w).1.weightBuffer = pushBuf s.weightBuffer w := rfl

/-- When the post-push buffer is not full, `stableWeight` is untouched. -/
lemma updateWeight_stableWeight_of_len (s : SState) (w : ℚ)
    (h : (pushBuf s.weightBuffer w).length ≠ 5) :
    (updateWeight s w).1.stableWeight = s.stableWeight := by
  rw [updateWeight_stableWeight_eq, if_neg]
  simp only [Bool.and_eq_true, beq_iff_eq]
  exact fun hc => h hc.2

lemma pushBuf_length_of_lt (b : List ℚ) (w : ℚ) (h : b.length < 5) :
    (pushBuf b w).length = b.length + 1 := by
  unfold pushBuf
  rw [if_neg]
  · simp
  · simp only [List.length_append, List.length_cons, List.length_nil, gt_iff_lt,
      not_lt]
    omega

/-- Folding a whole list of samples through the filter, state part only. -/
def ingestAll (s : SState) (ws : List ℚ) : SState :=
  ws.foldl (fun s w => (updateWeight s w).1) s

/-- While the buffer stays short of 5 samples, every ingest leaves the
stored `stableWeight` untouched. -/
lemma ingestAll_short : ∀ (ws : List ℚ) (s : SState),
    s.weightBuffer.length + ws.length < 5 →
    (ingestAll s ws).stableWeight = s.stableWeight ∧
      (ingestAll s ws).weightBuffer.length =
        s.weightBuffer.length + ws.length := by
  intro ws
  induction ws with
  | nil => intro s _; exact ⟨rfl, by simp [ingestAll]⟩
  | cons w tl ih =>
    intro s h
    simp only [List.length_cons] at h
    have hlt : s.weightBuffer.length < 5 := by omega
    have hp := pushBuf_length_of_lt s.weightBuffer w hlt
    have hstep : ingestAll s (w :: tl) = ingestAll (updateWeight s w).1 tl := rfl
    have hrec := ih (updateWeight s w).1 (by rw [updateWeight_buffer, hp]; omega)
    rw [hstep]
    refine ⟨?_, ?_⟩
    · rw [hrec.1, updateWeight_stableWeight_of_len s w (by rw [hp]; omega)]
    · rw [hrec.2, updateWeight_buffer, hp]
      simp only [List.length_cons]
      omega

/-- Claim C1 counterexample: (a) the very first sample already broadcasts
`stable = true` although the buffer holds one sample, refuting "no
WeightUpdate emitted while the buffer holds fewer than 5 samples has
stable = true"; (b) a full buffer `[0, 10, 5, 5, 5]` whose samples all lie
within ±5 (inclusive) of the mean 5 broadcasts `stable = false`, refuting
the inclusive-bound direction of the claimed equivalence. -/
theorem stableFlag_counterexample :
    ((updateWeight serialInit 100).2.stable = true ∧
      (updateWeight serialInit 100).1.weightBuffer.length = 1) ∧
    ((ingestAll serialInit [0, 10, 5, 5]).weightBuffer ++ [5] =
        [0, 10, 5, 5, 5] ∧
      |(0 : ℚ) - listMean [0, 10, 5, 5, 5]| ≤ 5 ∧
      |(10 : ℚ) - listMean [0, 10, 5, 5, 5]| ≤ 5 ∧
      |(5 : ℚ) - listMean [0, 10, 5, 5, 5]| ≤ 5 ∧
      (updateWeight (ingestAll serialInit [0, 10, 5, 5]) 5).2.stable = false) := by
  refine ⟨⟨?_, rfl⟩, ⟨rfl, by norm_num [listMean], by norm_num [listMean],
    by norm_num [listMean], ?_⟩⟩
  · rw [updateWeight_stable_eq]
    have hb : pushBuf serialInit.weightBuffer 100 = [100] := rfl
    rw [hb]
    simp only [List.all_cons, List.all_nil, Bool.and_true, decide_eq_true_eq]
    norm_num [listMean, jsAbs]
  · rw [updateWeight_stable_eq]
    have hb : pushBuf (ingestAll serialInit [0, 10, 5, 5]).weightBuffer 5 =
        [0, 10, 5, 5, 5] := rfl
    rw [hb, List.all_eq_false]
    refine ⟨0, by simp, ?_⟩
    simp only [decide_eq_true_eq]
    norm_num [listMean, jsAbs]

/-- Claim C1 (amended): on every ingest, the broadcast `stable` flag is
true iff every sample in the post-ingest buffer lies strictly within 5
kilograms of the buffer's arithmetic mean — with no requirement that the
buffer be full, so updates with fewer than 5 buffered samples can (and for
the first sample always do) carry `stable = true`. -/
theorem stableFlag_amended (s : SState) (w : ℚ) :
    (updateWeight s w).2.stable = true ↔
      ∀ x ∈ pushBuf s.weightBuffer w,
        |x - listMean (pushBuf s.weightBuffer w)| < 5 := by
  rw [updateWeight_stable_eq, List.all_eq_true]
  simp only [decide_eq_true_eq, jsAbs_eq_abs]

/-- Witness for `stableFlag_amended` at the concrete first sample 100. -/
theorem stableFlag_amended_witness :
    (updateWeight serialInit 100).2.stable = true :=
  (stableFlag_amended serialInit 100).mpr (by
    have hb : pushBuf serialInit.weightBuffer 100 = [100] := rfl
    rw [hb]
    intro x hx
    fin_cases hx
    norm_num [listMean])

/-- Claim C2 counterexample: after ingesting `[0, 10, 5, 5, 5]` the buffer
is full and every sample is within ±5 of the mean 5, so the claim demands
`stableWeight = round(5) = 5`; the code's strict `< 5` comparison leaves
`stableWeight` at its initial 0. -/
theorem stableWeightRule_counterexample :
    (ingestAll serialInit [0, 10, 5, 5, 5]).weightBuffer = [0, 10, 5, 5, 5] ∧
    (|(0 : ℚ) - listMean [0, 10, 5, 5, 5]| ≤ 5 ∧
      |(10 : ℚ) - listMean [0, 10, 5, 5, 5]| ≤ 5 ∧
      |(5 : ℚ) - listMean [0, 10, 5, 5, 5]| ≤ 5) ∧
    jsRound (listMean [0, 10, 5, 5, 5]) = 5 ∧
    (ingestAll serialInit [0, 10, 5, 5, 5]).stableWeight = 0 := by
  refine ⟨rfl, ?_, ?_, ?_⟩
  · exact ⟨by norm_num [listMean], by norm_num [listMean],
      by norm_num [listMean]⟩
  · norm_num [jsRound, listMean]
  · have hfour : (ingestAll serialInit [0, 10, 5, 5]).stableWeight = 0 :=
      (ingestAll_short [0, 10, 5, 5] serialInit (by simp [serialInit])).1
    have hstep : ingestAll serialInit [0, 10, 5, 5, 5] =
        (updateWeight (ingestAll serialInit [0, 10, 5, 5]) 5).1 := rfl
    rw [hstep, updateWeight_stableWeight_eq, if_neg, hfour]
    have hb : pushBuf (ingestAll serialInit [0, 10, 5, 5]).weightBuffer 5 =
        [0, 10, 5, 5, 5] := rfl
    rw [hb]
    simp only [Bool.and_eq_true, List.all_eq_true, decide_eq_true_eq, beq_iff_eq]
    rintro ⟨hall, -⟩
    have h0 := hall 0 (by simp)
    norm_num [listMean, jsAbs] at h0

/-- Claim C2 (amended): if after the ingest the buffer holds exactly 5
samples and every one lies strictly within 5 kilograms of the buffer mean,
the stored `stableWeight` becomes `round(mean)`; on every other ingest it
is unchanged from its previous value (never reset by unstable samples). -/
theorem stableWeightRule_amended (s : SState) (w : ℚ) :
    ((pushBuf s.weightBuffer w).length = 5 →
      (∀ x ∈ pushBuf s.weightBuffer w,
        |x - listMean (pushBuf s.weightBuffer w)| < 5) →
      (updateWeight s w).1.stableWeight =
        jsRound (listMean (pushBuf s.weightBuffer w))) ∧
    (¬((pushBuf s.weightBuffer w).length = 5 ∧
        ∀ x ∈ pushBuf s.weightBuffer w,
          |x - listMean (pushBuf s.weightBuffer w)| < 5) →
      (updateWeight s w).1.stableWeight = s.stableWeight) := by
  constructor
  · intro hlen hall
    have hcond : (((pushBuf s.weightBuffer w).all
          fun x => decide (jsAbs (x - listMean (pushBuf s.weightBuffer w)) < 5)) &&
        ((pushBuf s.weightBuffer w).length == 5)) = true := by
      simp only [Bool.and_eq_true, List.all_eq_true, decide_eq_true_eq,
        beq_iff_eq, jsAbs_eq_abs]
      exact ⟨hall, hlen⟩
    rw [updateWeight_stableWeight_eq, if_pos hcond]
  · intro hno
    have hcond : ¬((((pushBuf s.weightBuffer w).all
          fun x => decide (jsAbs (x - listMean (pushBuf s.weightBuffer w)) < 5)) &&
        ((pushBuf s.weightBuffer w).length == 5)) = true) := by
      simp only [Bool.and_eq_true, List.all_eq_true, decide_eq_true_eq,
        beq_iff_eq, jsAbs_eq_abs]
      exact fun h => hno ⟨h.2, h.1⟩
    rw [updateWeight_stableWeight_eq, if_neg hcond]

/-- Witness for `stableWeightRule_amended` at the spec's own example
`[39170, 39172, 39168, 39171, 39169]`: the fifth ingest stores 39170. -/
theorem stableWeightRule_amended_witness :
    (pushBuf (ingestAll serialInit [39170, 39172, 39168, 39171]).weightBuffer
        39169).length = 5 ∧
    (updateWeight (ingestAll serialInit [39170, 39172, 39168, 39171])
        39169).1.stableWeight = 39170 := by
  have hb : pushBuf (ingestAll serialInit [39170, 39172, 39168, 39171]).weightBuffer
      39169 = [39170, 39172, 39168, 39171, 39169] := rfl
  refine ⟨by rw [hb]; rfl, ?_⟩
  have h := (stableWeightRule_amended
    (ingestAll serialInit [39170, 39172, 39168, 39171]) 39169).1
    (by rw [hb]; rfl)
    (by rw [hb]; intro x hx; fin_cases hx <;> norm_num [listMean])
  rw [h, hb]
  norm_num [jsRound, listMean]

/-- Claim C10: the synthetic current-state event sent to a freshly
registered subscriber always carries `stable = false` (hard-coded),
together with the current weight, the last stable weight and the
simulation flag, whatever the service state — in particular however the
stability buffer currently looks. -/
theorem subscriberHello_stable_false (s : SState) :
    (initialClientMessage s).stable = false ∧
    (initialClientMessage s).weight = s.currentWeight ∧
    (initialClientMessage s).stableWeight = s.stableWeight ∧
    (initialClientMessage s).simulation = s.isSimulation :=
  ⟨rfl, rfl, rfl, rfl⟩

/-! ### Parser claims -/

lemma captureValue_nonneg (l : List Char) : 0 ≤ captureValue l := by
  unfold captureValue
  positivity

lemma extractWeight_nonneg (line : String) (v : ℚ)
    (h : extractWeight line = some v) : 0 ≤ v := by
  unfold extractWeight at h
  obtain ⟨l, -, rfl⟩ := Option.map_eq_some'.mp h
  exact captureValue_nonneg l

lemma extractWeight_neg50 : extractWeight "-50" = some 50 := by
  have h1 : findFirstNumber (jsTrim "-50".toList) = some ['5', '0'] := by decide
  have h2 : captureValue ['5', '0'] =
      ((50 : ℕ) : ℚ) + ((0 : ℕ) : ℚ) / 10 ^ (0 : ℕ) := rfl
  unfold extractWeight
  rw [h1, Option.map_some', h2]
  norm_num

/-- Claim C4 counterexample: the regex capture group excludes the sign, so
the line `"-50"` — whose first signed decimal number is −50 — parses to the
accepted sample 50, which is pushed through the filter; the claim said a
negative first number produces no accepted sample. -/
theorem parserSign_counterexample :
    extractWeight "-50" = some 50 ∧
    (parseWeightFn serialInit "-50").weightBuffer = [50] ∧
    (parseWeightFn serialInit "-50").currentWeight = 50 := by
  have hp : parseWeightFn serialInit "-50" = (updateWeight serialInit 50).1 := by
    unfold parseWeightFn
    rw [extractWeight_neg50]
    show (if (0:ℚ) ≤ 50 ∧ (50:ℚ) < 200000
        then (updateWeight serialInit 50).1 else serialInit) = _
    rw [if_pos (by norm_num : (0:ℚ) ≤ 50 ∧ (50:ℚ) < 200000)]
  exact ⟨extractWeight_neg50, by rw [hp]; rfl, by rw [hp]; rfl⟩

/-- Claim C4 (amended): the parser extracts the first decimal number in the
line with any leading sign ignored (the capture group excludes it), so the
extracted value is always nonnegative; extracted values below 200000 are
accepted into the filter, values at or above 200000 are dropped silently
with the state unchanged, and a line with no number leaves the state
unchanged. -/
theorem parserSign_amended (s : SState) (line : String) :
    (∀ v, extractWeight line = some v → 0 ≤ v) ∧
    (extractWeight line = none → parseWeightFn s line = s) ∧
    (∀ v, extractWeight line = some v → v < 200000 →
      parseWeightFn s line = (updateWeight s v).1) ∧
    (∀ v, extractWeight line = some v → ¬v < 200000 →
      parseWeightFn s line = s) := by
  refine ⟨fun v hv => extractWeight_nonneg line v hv, ?_, ?_, ?_⟩
  · intro h
    unfold parseWeightFn
    rw [h]
  · intro v hv hlt
    unfold parseWeightFn
    rw [hv]
    show (if 0 ≤ v ∧ v < 200000 then (updateWeight s v).1 else s) = _
    rw [if_pos ⟨extractWeight_nonneg line v hv, hlt⟩]
  · intro v hv hge
    unfold parseWeightFn
    rw [hv]
    show (if 0 ≤ v ∧ v < 200000 then (updateWeight s v).1 else s) = _
    rw [if_neg fun hc => hge hc.2]

/-- Witness for `parserSign_amended` at the line `"-50"`. -/
theorem parserSign_amended_witness :
    extractWeight "-50" = some 50 ∧
    parseWeightFn serialInit "-50" = (updateWeight serialInit 50).1 :=
  ⟨extractWeight_neg50,
    (parserSign_amended serialInit "-50").2.2.1 50 extractWeight_neg50
      (by norm_num)⟩

/-! ### State-machine invariants -/

lemma updateWeight_isConnected (s : SState) (w : ℚ) :
    (updateWeight s w).1.isConnected = s.isConnected := rfl

lemma updateWeight_simActive (s : SState) (w : ℚ) :
    (updateWeight s w).1.simActive = s.simActive := rfl

lemma updateWeight_pending (s : SState) (w : ℚ) :
    (updateWeight s w).1.pending = s.pending := rfl

lemma updateWeight_reconnectActive (s : SState) (w : ℚ) :
    (updateWeight s w).1.reconnectActive = s.reconnectActive := rfl

lemma parseWeightFn_cases (s : SState) (line : String) :
    parseWeightFn s line = s ∨
      ∃ w, parseWeightFn s line = (updateWeight s w).1 := by
  cases h : extractWeight line with
  | none => exact Or.inl (by unfold parseWeightFn; rw [h])
  | some w =>
    by_cases hw : 0 ≤ w ∧ w < 200000
    · refine Or.inr ⟨w, ?_⟩
      unfold parseWeightFn
      rw [h]
      show (if 0 ≤ w ∧ w < 200000 then (updateWeight s w).1 else s) = _
      rw [if_pos hw]
    · refine Or.inl ?_
      unfold parseWeightFn
      rw [h]
      show (if 0 ≤ w ∧ w < 200000 then (updateWeight s w).1 else s) = _
      rw [if_neg hw]

/-- One-step preservation of the feed-exclusivity invariant: no atomic
event-loop callback ever leaves the service both connected and with a
running simulation interval. -/
lemma inv3_step (s : SState) (e : SEvent)
    (h : ¬(s.isConnected = true ∧ s.simActive = true)) :
    ¬((step s e).isConnected = true ∧ (step s e).simActive = true) := by
  cases e with
  | connectAttempt =>
    simp only [step, tryConnect]
    split
    · exact h
    · exact h
  | connectAttemptEx =>
    simp only [step, tryConnectEx, startReconnectLoop, startSimulationIfNeeded]
    split
    · exact h
    · split <;> simp
  | openSuccess =>
    simp only [step]
    split
    · exact h
    · simp [stopReconnectLoop, stopSimulation]
  | openFail =>
    simp only [step, startReconnectLoop, startSimulationIfNeeded]
    split
    · exact h
    · split <;> simp
  | portLost =>
    simp only [step, onPortLost, startReconnectLoop, startSimulationIfNeeded]
    split <;> simp
  | simTick noise =>
    simp only [step]
    split
    · split
      · simp [stopSimulation]
      · rename_i hc
        exact fun hx => hc (by
          have := hx.1
          rwa [updateWeight_isConnected] at this)
    · exact h
  | pollTick available =>
    simp only [step]
    split
    · split
      · exact h
      · split
        · simp only [tryConnect]
          split
          · exact h
          · exact h
        · exact h
    · exact h
  | reconnectReq =>
    simp only [step, tryConnect, stopReconnectLoop, stopSimulation]
    split <;> simp
  | dataLine line =>
    simp only [step]
    split
    · rcases parseWeightFn_cases s line with hc | ⟨w, hc⟩
      · rw [hc]; exact h
      · rw [hc, updateWeight_isConnected, updateWeight_simActive]; exact h
    · exact h

lemma inv3_run (evs : List SEvent) : ∀ s : SState,
    ¬(s.isConnected = true ∧ s.simActive = true) →
    ¬((run s evs).isConnected = true ∧ (run s evs).simActive = true) := by
  induction evs with
  | nil => exact fun s h => h
  | cons e tl ih => exact fun s h => ih (step s e) (inv3_step s e h)

/-- Claim C3: in every state reachable from startup, the real connection
and the simulation interval are never simultaneously active; moreover a
simulation tick taken in any state that is connected stops the simulation
interval on that very tick. -/
theorem feedExclusivity :
    (∀ evs : List SEvent,
      ¬((run serialInit evs).isConnected = true ∧
        (run serialInit evs).simActive = true)) ∧
    (∀ (s : SState) (noise : ℤ), s.simActive = true → s.isConnected = true →
      (step s (SEvent.simTick noise)).simActive = false) := by
  constructor
  · exact fun evs => inv3_run evs serialInit (by simp [serialInit])
  · intro s noise hs hc
    simp only [step]
    rw [if_pos hs, if_pos hc]
    rfl

/-- Witness for `feedExclusivity`: along a concrete reachable trace ending
connected the simulation flag is off, and a concrete
connected-with-simulation state's tick self-stops. -/
theorem feedExclusivity_witness :
    ((run serialInit [SEvent.connectAttempt, SEvent.openSuccess]).isConnected &&
      (run serialInit [SEvent.connectAttempt, SEvent.openSuccess]).simActive) =
        false ∧
    (step { serialInit with simActive := true, isConnected := true }
        (SEvent.simTick 0)).simActive = false := by
  refine ⟨?_, feedExclusivity.2
    { serialInit with simActive := true, isConnected := true } 0 rfl rfl⟩
  have h := feedExclusivity.1 [SEvent.connectAttempt, SEvent.openSuccess]
  cases hx : (run serialInit
      [SEvent.connectAttempt, SEvent.openSuccess]).simActive
  · rw [Bool.and_false]
  · exact absurd ⟨rfl, hx⟩ h

lemma tryConnect_inv (s : SState)
    (h : s.pending = if s.reconnectActive then 1 else 0) :
    (tryConnect s).pending = if (tryConnect s).reconnectActive then 1 else 0 := by
  unfold tryConnect
  split
  · rename_i hr
    rw [hr] at h
    simpa using h
  · rename_i hr
    simp only [Bool.not_eq_true] at hr
    rw [hr] at h
    simp only [Bool.false_eq_true, if_false] at h
    show s.pending + 1 = 1
    omega

/-- One-step preservation of the attempt-count invariant: the number of
outstanding open callbacks is 1 exactly while `reconnectActive` is set,
and 0 otherwise. -/
lemma inv6_step (s : SState) (e : SEvent)
    (h : s.pending = if s.reconnectActive then 1 else 0) :
    (step s e).pending = if (step s e).reconnectActive then 1 else 0 := by
  cases e with
  | connectAttempt => exact tryConnect_inv s h
  | connectAttemptEx =>
    simp only [step, tryConnectEx, startReconnectLoop, startSimulationIfNeeded]
    split
    · rename_i hr
      rw [hr] at h
      simpa using h
    · split <;> split at h <;> simp_all
  | openSuccess =>
    simp only [step, stopReconnectLoop, stopSimulation]
    split
    · exact h
    · split at h <;> simp_all
  | openFail =>
    simp only [step, startReconnectLoop, startSimulationIfNeeded]
    split
    · exact h
    · split <;> split at h <;> simp_all
  | portLost =>
    simp only [step, onPortLost, startReconnectLoop, startSimulationIfNeeded]
    split <;> split at h <;> simp_all
  | simTick noise =>
    simp only [step]
    split
    · split
      · exact h
      · rw [updateWeight_pending, updateWeight_reconnectActive]
        exact h
    · exact h
  | pollTick available =>
    simp only [step]
    split
    · split
      · exact h
      · split
        · exact tryConnect_inv s h
        · exact h
    · exact h
  | reconnectReq => exact tryConnect_inv (stopReconnectLoop (stopSimulation s)) h
  | dataLine line =>
    simp only [step]
    split
    · rcases parseWeightFn_cases s line with hc | ⟨w, hc⟩
      · rw [hc]; exact h
      · rw [hc, updateWeight_pending, updateWeight_reconnectActive]; exact h
    · exact h

lemma inv6_run (evs : List SEvent) : ∀ s : SState,
    s.pending = (if s.reconnectActive then 1 else 0) →
    (run s evs).pending = if (run s evs).reconnectActive then 1 else 0 := by
  induction evs with
  | nil => exact fun s h => h
  | cons e tl ih => exact fun s h => ih (step s e) (inv6_step s e h)

/-- Claim C6: in every reachable state at most one connect attempt is
outstanding, and `reconnect` requested while an attempt is outstanding
(the guard flag set) leaves the count of outstanding attempts unchanged —
it does not start a second concurrent attempt. -/
theorem singleAttempt :
    (∀ evs : List SEvent, (run serialInit evs).pending ≤ 1) ∧
    (∀ s : SState, s.reconnectActive = true →
      (step s SEvent.reconnectReq).pending = s.pending ∧
      (step s SEvent.reconnectReq).reconnectActive = true) := by
  constructor
  · intro evs
    have h := inv6_run evs serialInit (by simp [serialInit])
    rw [h]
    split <;> omega
  · intro s hr
    have hstep : step s SEvent.reconnectReq =
        stopReconnectLoop (stopSimulation s) := by
      simp only [step, tryConnect]
      rw [if_pos]
      exact hr
    rw [hstep]
    exact ⟨rfl, hr⟩

/-- Witness for `singleAttempt`: with the guard flag set and one attempt
outstanding, a reconnect request leaves the outstanding count at 1. -/
theorem singleAttempt_witness :
    ({ serialInit with reconnectActive := true, pending := 1 } :
        SState).reconnectActive = true ∧
    (step { serialInit with reconnectActive := true, pending := 1 }
        SEvent.reconnectReq).pending = 1 := by
  refine ⟨rfl, ?_⟩
  have h := (singleAttempt.2
    { serialInit with reconnectActive := true, pending := 1 } rfl).1
  rw [h]

/-- Claim C5 counterexample: along the reachable trace
attempt → open-failure (simulation starts) → one simulation tick (a sample
enters the buffer) → attempt → open-success, the service ends Connected
with the simulation-era sample still in the stability buffer: the
Connecting → Connected transition never resets the buffer. -/
theorem bufferReset_counterexample :
    (run serialInit [SEvent.connectAttempt, SEvent.openFail, SEvent.simTick 0,
        SEvent.connectAttempt, SEvent.openSuccess]).isConnected = true ∧
    (run serialInit [SEvent.connectAttempt, SEvent.openFail, SEvent.simTick 0,
        SEvent.connectAttempt, SEvent.openSuccess]).weightBuffer.length = 1 :=
  ⟨rfl, rfl⟩

/-- Claim C5 (amended): the open-success callback stops the simulation and
the reconnect poll and marks the service connected, but it leaves the
stability buffer exactly as it was — samples from the previous feed source
(simulation or an earlier connection) remain in the buffer. -/
theorem bufferReset_amended (s : SState) :
    (step s SEvent.openSuccess).weightBuffer = s.weightBuffer ∧
    (s.pending ≠ 0 →
      (step s SEvent.openSuccess).isConnected = true ∧
      (step s SEvent.openSuccess).simActive = false ∧
      (step s SEvent.openSuccess).pollActive = false) := by
  constructor
  · simp only [step, stopReconnectLoop, stopSimulation]
    split <;> rfl
  · intro hp
    simp only [step, stopReconnectLoop, stopSimulation]
    rw [if_neg hp]
    exact ⟨rfl, rfl, rfl⟩

/-- Witness for `bufferReset_amended` with one outstanding attempt. -/
theorem bufferReset_amended_witness :
    ({ serialInit with pending := 1 } : SState).pending = 1 ∧
    (step { serialInit with pending := 1 } SEvent.openSuccess).isConnected =
      true ∧
    (step { serialInit with pending := 1 } SEvent.openSuccess).weightBuffer =
      serialInit.weightBuffer :=
  ⟨rfl,
    ((bufferReset_amended { serialInit with pending := 1 }).2
      Nat.one_ne_zero).1,
    (bufferReset_amended { serialInit with pending := 1 }).1⟩

/-! ### Printer claims -/

lemma range'_add_own (s m n : ℕ) :
    List.range' s m ++ List.range' (s + m) n = List.range' s (m + n) := by
  have h := List.range'_append s m n 1
  simp only [one_mul] at h
  rw [h, Nat.add_comm n m]

lemma runCopies_next (sendOk : ℕ → Bool) (tag : SendTag) :
    ∀ (n start : ℕ), (runCopies sendOk tag start n).1 =
      start + (runCopies sendOk tag start n).2.2.length := by
  intro n
  induction n with
  | zero => intro start; simp [runCopies]
  | succ n ih =>
    intro start
    simp only [runCopies]
    split
    · simp only [List.length_cons]
      rw [ih (start + 1)]
      omega
    · simp

lemma runCopies_map_snd (sendOk : ℕ → Bool) (tag : SendTag) :
    ∀ (n start : ℕ), (runCopies sendOk tag start n).2.2.map Prod.snd =
      List.range' start (runCopies sendOk tag start n).2.2.length := by
  intro n
  induction n with
  | zero => intro start; simp [runCopies]
  | succ n ih =>
    intro start
    simp only [runCopies]
    split
    · simp only [List.map_cons, List.length_cons, List.range'_succ]
      rw [ih (start + 1)]
    · simp [List.range'_succ]

lemma runCopies_all_ok (sendOk : ℕ → Bool) (tag : SendTag) :
    ∀ (n start : ℕ), (∀ i, start ≤ i → i < start + n → sendOk i = true) →
      runCopies sendOk tag start n =
        (start + n, true, (List.range' start n).map fun i => (tag, i)) := by
  intro n
  induction n with
  | zero => intro start _; simp [runCopies]
  | succ n ih =>
    intro start h
    have hs : sendOk start = true := h start (le_refl _) (by omega)
    simp only [runCopies, hs, if_true]
    rw [ih (start + 1) (fun i h1 h2 => h i (by omega) (by omega))]
    have harith : start + 1 + n = start + (n + 1) := by omega
    rw [harith, List.range'_succ, List.map_cons]

lemma runCopies_first_fail (sendOk : ℕ → Bool) (tag : SendTag) :
    ∀ (k n start : ℕ), k < n → sendOk (start + k) = false →
      (∀ i, start ≤ i → i < start + k → sendOk i = true) →
      runCopies sendOk tag start n =
        (start + k + 1, false,
          (List.range' start (k + 1)).map fun i => (tag, i)) := by
  intro k
  induction k with
  | zero =>
    intro n start hk hfail hall
    cases n with
    | zero => omega
    | succ m =>
      have hs : sendOk start = false := by simpa using hfail
      simp [runCopies, hs, List.range'_succ]
  | succ k ih =>
    intro n start hk hfail hall
    cases n with
    | zero => omega
    | succ m =>
      have hs : sendOk start = true := hall start (le_refl _) (by omega)
      simp only [runCopies, hs, if_true]
      rw [ih m (start + 1) (by omega)
        (by rw [show start + 1 + k = start + (k + 1) by omega]; exact hfail)
        (fun i h1 h2 => hall i (by omega) (by omega))]
      have harith : start + 1 + k + 1 = start + (k + 1) + 1 := by omega
      rw [harith]
      simp [List.range'_succ, Nat.add_assoc]

/-- Concrete locale formatter and bill used by closed instances below. -/
def idFmt : DateFmt := { localeDate := id, localeTime := id, locale := id }

def sampleBill : Bill :=
  { billNo := "1", dateTime := "2024-01-01", vehicleNo := "TN01AB1234",
    customer := "ACME", material := "SAND", charges := "100",
    grossWeight := none, tareWeight := none, netWeight := 0,
    camera1Image := "", camera2Image := "" }

/-- Claim C7 counterexample: with the renderer succeeding, 2 copies
requested, and the first socket send failing, the failing copy does not
abort the job with an error: the dispatcher switches to the raw-PCL path,
performs two more sends, and reports overall success with method
`ip_raw`. -/
theorem ipDispatch_counterexample :
    (printViaIP idFmt sampleBill true (fun i => i != 0) 2).result =
      some "ip_raw" ∧
    (printViaIP idFmt sampleBill true (fun i => i != 0) 2).sends =
      [(SendTag.pdf, 0), (SendTag.raw, 1), (SendTag.raw, 2)] :=
  ⟨rfl, rfl⟩

/-- Claim C7 (amended): copies are sent strictly sequentially (the trace of
socket sends is consecutively indexed from 0); on the raw path a copy's
transport failure aborts the remaining copies and the call rejects
(`result = none`) after exactly the failed attempt; but on the PDF path a
copy's transport failure does not abort the job — it falls into the raw
fallback, which re-sends every copy as raw PCL and reports `ip_raw` when
those sends succeed. -/
theorem ipDispatch_amended (fmt : DateFmt) (bill : Bill) (sendOk : ℕ → Bool)
    (copies j : ℕ) :
    (∀ renderOk, (printViaIP fmt bill renderOk sendOk copies).sends.map
        Prod.snd =
      List.range (printViaIP fmt bill renderOk sendOk copies).sends.length) ∧
    (j < copies → sendOk j = false → (∀ i, i < j → sendOk i = true) →
      (printViaIP fmt bill false sendOk copies).result = none ∧
      (printViaIP fmt bill false sendOk copies).sends.length = j + 1) ∧
    (j < copies → sendOk j = false → (∀ i, i ≠ j → sendOk i = true) →
      (printViaIP fmt bill true sendOk copies).result = some "ip_raw" ∧
      (printViaIP fmt bill true sendOk copies).sends =
        ((List.range' 0 (j + 1)).map fun i => (SendTag.pdf, i)) ++
        ((List.range' (j + 1) copies).map fun i => (SendTag.raw, i))) := by
  refine ⟨?_, ?_, ?_⟩
  · intro renderOk
    unfold printViaIP
    cases renderOk with
    | false =>
      rw [if_neg (by simp)]
      simp only []
      rw [runCopies_map_snd, List.range_eq_range']
    | true =>
      rw [if_pos rfl]
      split
      · simp only []
        rw [runCopies_map_snd, List.range_eq_range']
      · simp only [List.map_append, List.length_append]
        rw [runCopies_map_snd, runCopies_map_snd, List.range_eq_range',
          runCopies_next sendOk SendTag.pdf copies 0]
        exact range'_add_own 0 _ _
  · intro hj hfail hall
    unfold printViaIP
    rw [if_neg (by simp)]
    rw [runCopies_first_fail sendOk SendTag.raw j copies 0 hj
      (by simpa using hfail) (by intro i h1 h2; exact hall i (by omega))]
    refine ⟨by simp, by simp⟩
  · intro hj hfail hall
    unfold printViaIP
    rw [if_pos rfl]
    rw [runCopies_first_fail sendOk SendTag.pdf j copies 0 hj
      (by simpa using hfail) (by intro i h1 h2; exact hall i (by omega))]
    rw [if_neg (by simp)]
    simp only []
    rw [runCopies_all_ok sendOk SendTag.raw copies (0 + j + 1)
      (by intro i h1 h2; exact hall i (by omega))]
    simp only [Nat.zero_add]
    exact ⟨by simp, by simp⟩

/-- Witness for `ipDispatch_amended`: 3 copies with exactly send 1
failing — the raw path rejects after attempt 1, the PDF path falls back
and succeeds as `ip_raw`. -/
theorem ipDispatch_amended_witness :
    (printViaIP idFmt sampleBill false (fun i => i != 1) 3).result = none ∧
    (printViaIP idFmt sampleBill true (fun i => i != 1) 3).result =
      some "ip_raw" := by
  have hall2 : ∀ i : ℕ, i < 1 → ((fun i => i != 1) : ℕ → Bool) i = true := by
    intro i hi
    have h0 : i = 0 := by omega
    subst h0
    rfl
  have hall3 : ∀ i : ℕ, i ≠ 1 → ((fun i => i != 1) : ℕ → Bool) i = true := by
    intro i hi
    simpa using hi
  have h2 := (ipDispatch_amended idFmt sampleBill (fun i => i != 1) 3 1).2.1
    (by omega) rfl hall2
  have h3 := (ipDispatch_amended idFmt sampleBill (fun i => i != 1) 3 1).2.2
    (by omega) rfl hall3
  exact ⟨h2.1, h3.1⟩

/-- Claim C8: when the PDF renderer fails in ip mode and the raw sends
succeed, the result method is `ip_raw` and the payload is the raw PCL
document; and the raw document depends only on the structured bill fields,
never on the camera images — substituting arbitrary camera image bytes
leaves it unchanged. -/
theorem rawFallback_no_camera (fmt : DateFmt) (bill : Bill)
    (sendOk : ℕ → Bool) (copies : ℕ) (img1 img2 : String) :
    ((∀ i, i < copies → sendOk i = true) →
      (printViaIP fmt bill false sendOk copies).result = some "ip_raw" ∧
      (printViaIP fmt bill false sendOk copies).rawPayload =
        some (buildRawPCL fmt bill)) ∧
    buildRawPCL fmt { bill with camera1Image := img1, camera2Image := img2 } =
      buildRawPCL fmt bill := by
  refine ⟨?_, rfl⟩
  intro hok
  unfold printViaIP
  rw [if_neg (by simp)]
  rw [runCopies_all_ok sendOk SendTag.raw copies 0
    (by intro i h1 h2; exact hok i (by omega))]
  exact ⟨by simp, rfl⟩

/-- Witness for `rawFallback_no_camera` with one copy and a working
socket. -/
theorem rawFallback_no_camera_witness :
    (printViaIP idFmt sampleBill false (fun _ => true) 1).result =
      some "ip_raw" ∧
    buildRawPCL idFmt
        { sampleBill with camera1Image := "CAM1", camera2Image := "CAM2" } =
      buildRawPCL idFmt sampleBill :=
  ⟨((rawFallback_no_camera idFmt sampleBill (fun _ => true) 1 "CAM1" "CAM2").1
      (fun _ _ => rfl)).1,
    (rawFallback_no_camera idFmt sampleBill (fun _ => true) 1 "CAM1" "CAM2").2⟩

/-- Claim C9: the reachability probe always resolves: on a transport error
it reports unreachable with the transport's error text, on its own
4-second timeout (`testTimeoutMs = 4000`) it reports unreachable with the
non-empty text `Timeout`, and it never writes payload bytes to the socket
in any outcome — in particular not on a successful connect. -/
theorem probe_resolves (host : String) (port : ℕ) (msg : String) :
    ((testIPPrinter host port (SocketOutcome.errored msg)).1.reachable =
        false ∧
      (testIPPrinter host port (SocketOutcome.errored msg)).1.error =
        some msg) ∧
    ((testIPPrinter host port SocketOutcome.timedOut).1.reachable = false ∧
      (testIPPrinter host port SocketOutcome.timedOut).1.error =
        some "Timeout") ∧
    (∀ oc, (testIPPrinter host port oc).2 = []) ∧
    testTimeoutMs = 4000 := by
  refine ⟨⟨rfl, rfl⟩, ⟨rfl, rfl⟩, fun oc => ?_, rfl⟩
  cases oc <;> rfl

/-- Witness for `probe_resolves` at a concrete refused connection: the
probe resolves unreachable with the transport's error text, and even a
successful connect writes nothing to the socket. -/
theorem probe_resolves_witness :
    (testIPPrinter "127.0.0.1" 9100
        (SocketOutcome.errored "connect ECONNREFUSED")).1.reachable = false ∧
    (testIPPrinter "127.0.0.1" 9100
        (SocketOutcome.errored "connect ECONNREFUSED")).1.error =
      some "connect ECONNREFUSED" ∧
    (testIPPrinter "127.0.0.1" 9100 SocketOutcome.connected).2 = [] :=
  ⟨(probe_resolves "127.0.0.1" 9100 "connect ECONNREFUSED").1.1,
    (probe_resolves "127.0.0.1" 9100 "connect ECONNREFUSED").1.2,
    (probe_resolves "127.0.0.1" 9100 "connect ECONNREFUSED").2.2.1
      SocketOutcome.connected⟩

end WeighBridge
